import Mathlib

/-
Shallow embedding of the product-catalog validation and bundle-injection
subsystem of the devvit CLI (paymentsConfig: readProducts, getPaymentsConfig,
makePaymentsConfig, validateProductIcon), together with the Bundle data it
consumes. The implementation file is not part of the examined slice; the
definitions below are modelled from the design spec, with the observable
behavior (check order, error messages) cross-checked against the unit tests
of paymentsConfig that are in the slice.
-/

namespace Devvit

/-- Accounting model of a product: the enumerated values recognized by the
product schema. -/
inductive AccountingType where
  | instant
  | durable
  | consumable
  deriving DecidableEq, Repr

/-- A sellable unit: sku, display name, price, accounting type, free-form
string metadata, and optional named image slots mapping to asset filenames. -/
structure Product where
  sku : String
  displayName : String
  price : Int
  accountingType : AccountingType
  metadata : List (String × String)
  images : List (String × String)
  deriving DecidableEq, Repr

/-- A service definition reference carried by a capability declaration on the
provides side of a bundle's dependency graph. -/
structure SerializableServiceDefinition where
  fullName : String
  name : String
  version : String
  deriving DecidableEq, Repr

/-- An entry of dependencies.provides: a capability the app provides. -/
structure ProvidesEntry where
  definition : SerializableServiceDefinition
  partitionsBy : List String
  deriving DecidableEq, Repr

/-- An entry of dependencies.uses: a capability the app depends on, named by
its fully-qualified type name. -/
structure UsesEntry where
  typeName : String
  name : String
  deriving DecidableEq, Repr

/-- The capability graph of a bundle. -/
structure Dependencies where
  hostname : String
  provides : List ProvidesEntry
  uses : List UsesEntry
  deriving DecidableEq, Repr

/-- The sealed payments configuration: a mapping keyed by product sku. -/
abbrev PaymentsConfig := List (String × Product)

/-- A deployable application bundle, consumed read-only except for the
paymentsConfig slot that this subsystem populates. -/
structure Bundle where
  code : String
  assetIds : List (String × String)
  webviewAssetIds : List (String × String)
  dependencies : Option Dependencies
  paymentsConfig : Option PaymentsConfig
  deriving DecidableEq, Repr

/-- Modelled from the spec: the fully-qualified name of the payment-processor
service definition (PaymentProcessorDefinition.fullName from the protos
package, which is outside the examined slice). -/
def paymentProcessorFullName : String := "devvit.payments.v1alpha.PaymentProcessor"

/-- Modelled from the spec: the fully-qualified name of the payments service
definition (PaymentsServiceDefinition.fullName from the protos package,
which is outside the examined slice). -/
def paymentsServiceFullName : String := "devvit.payments.v1alpha.PaymentsService"

/-- Capability check: the bundle declares payment processing when its
dependencies provide the payment-processor definition or use the payments
service definition. -/
def hasPaymentsCapability (b : Bundle) : Bool :=
  match b.dependencies with
  | none => false
  | some d =>
    d.provides.any (fun pr => pr.definition.fullName == paymentProcessorFullName) ||
      d.uses.any (fun u => u.typeName == paymentsServiceFullName)

/-- The failure taxonomy of the payments-config pipeline. Data-carrying
constructors record the filenames or keys the error names. -/
inductive PaymentsError where
  | missingCapability
  | emptyCatalog
  | missingAssets (files : List String)
  | reservedMetadataKey (keys : List String)
  | schemaValidation (diagnostic : String)
  deriving DecidableEq, Repr

/-- The user-facing message of each error, with the stable phrasings the
tests match on. -/
def PaymentsError.message : PaymentsError → String
  | .missingCapability => "your app does not handle payment processing"
  | .emptyCatalog => "you must specify products in the `src/products.json` config file"
  | .missingAssets files =>
      "Product images " ++ String.intercalate ", " files ++ " are not included in the assets"
  | .reservedMetadataKey keys =>
      "Products metadata cannot start with \"devvit-\". Invalid keys: " ++
        String.intercalate ", " keys
  | .schemaValidation diagnostic => "products.json validation error: " ++ diagnostic

/-- Assembly step: build the PaymentsConfig as a mapping keyed by sku. -/
def makePaymentsConfig (products : List Product) : PaymentsConfig :=
  products.map (fun p => (p.sku, p))

/-- The filenames present in the bundle's asset manifest. -/
def assetKeys (b : Bundle) : List String := b.assetIds.map Prod.fst

/-- Every image filename referenced by any image slot of any product, in
input order. -/
def referencedImages (products : List Product) : List String :=
  products.flatMap (fun p => p.images.map Prod.snd)

/-- The referenced image filenames that are absent from the bundle's asset
manifest, each named once. -/
def missingImageAssets (b : Bundle) (products : List Product) : List String :=
  ((referencedImages products).filter
    (fun f => !(b.assetIds.any (fun kv => kv.fst == f)))).dedup

/-- Modelled from the spec: getPaymentsConfig cross-references a schema-valid
product list against the bundle's capability graph and asset manifest, in
order: capability check, non-empty check, asset cross-reference (skipped when
verifyAssets is false), then assembly keyed by sku. -/
def getPaymentsConfig (b : Bundle) (products : List Product) (verifyAssets : Bool) :
    Except PaymentsError PaymentsConfig :=
  if hasPaymentsCapability b = true then
    if products = [] then Except.error PaymentsError.emptyCatalog
    else
      let missing := if verifyAssets then missingImageAssets b products else []
      if missing = [] then Except.ok (makePaymentsConfig products)
      else Except.error (PaymentsError.missingAssets missing)
  else Except.error PaymentsError.missingCapability

/-- The caller-side injection step: on success the config is attached to the
bundle's paymentsConfig slot, on failure the bundle is returned unchanged
together with the error. -/
def injectProducts (b : Bundle) (products : List Product) (verifyAssets : Bool) :
    Bundle × Option PaymentsError :=
  match getPaymentsConfig b products verifyAssets with
  | .error e => (b, some e)
  | .ok cfg => ({ b with paymentsConfig := some cfg }, none)

/-- JSON values, modelling the parsed content of a catalog file. -/
inductive Json where
  | null
  | bool (b : Bool)
  | num (n : Int)
  | str (s : String)
  | arr (elements : List Json)
  | obj (fields : List (String × Json))

/-- Field lookup on a JSON object; `none` on other shapes or missing keys. -/
def Json.getField : Json → String → Option Json
  | .obj fields, key => (fields.find? (fun kv => kv.fst == key)).map Prod.snd
  | _, _ => none

/-- Recognizes the enumerated accountingType strings of the product JSON
shape. -/
def parseAccountingType : Json → Option AccountingType
  | .str "INSTANT" => some .instant
  | .str "DURABLE" => some .durable
  | .str "CONSUMABLE" => some .consumable
  | _ => none

/-- Reads an object's fields as a string-to-string mapping; fails if any
value is not a string. -/
def parseStringPairs : List (String × Json) → Option (List (String × String))
  | [] => some []
  | (k, .str v) :: rest => (parseStringPairs rest).map (fun r => (k, v) :: r)
  | _ => none

/-- Structural validation of one raw product: required fields with the types
of the declared JSON shape; metadata and images are optional and default
to empty. -/
def parseProduct (j : Json) : Except String Product := do
  let sku ← match j.getField "sku" with
    | some (.str s) => Except.ok s
    | _ => Except.error "product sku must be a string"
  let displayName ← match j.getField "displayName" with
    | some (.str s) => Except.ok s
    | _ => Except.error "product displayName must be a string"
  let price ← match j.getField "price" with
    | some (.num n) => Except.ok n
    | _ => Except.error "product price must be a number"
  let acct ← match (j.getField "accountingType").bind parseAccountingType with
    | some a => Except.ok a
    | none => Except.error "product accountingType must be a recognized value"
  let metadata ← match j.getField "metadata" with
    | none => Except.ok []
    | some (.obj fields) =>
      match parseStringPairs fields with
      | some m => Except.ok m
      | none => Except.error "product metadata must map strings to strings"
    | some _ => Except.error "product metadata must map strings to strings"
  let images ← match j.getField "images" with
    | none => Except.ok []
    | some (.obj fields) =>
      match parseStringPairs fields with
      | some m => Except.ok m
      | none => Except.error "product images must map slots to filenames"
    | some _ => Except.error "product images must map slots to filenames"
  Except.ok { sku := sku, displayName := displayName, price := price,
              accountingType := acct, metadata := metadata, images := images }

/-- Fail-fast traversal: validate each element in order, aborting the whole
load at the first invalid one (all-or-nothing schema validation). -/
def exceptMapList {α β ε : Type} (f : α → Except ε β) : List α → Except ε (List β)
  | [] => Except.ok []
  | x :: rest => do
    let y ← f x
    let ys ← exceptMapList f rest
    Except.ok (y :: ys)

/-- The platform-reserved metadata key beginning. -/
def reservedKeyStart : String := "devvit-"

/-- Whether the string s starts with the string pre, computed on the
character lists. -/
def strStartsWith (s pre : String) : Bool := pre.toList.isPrefixOf s.toList

/-- The metadata keys of one product that collide with the reserved
beginning. -/
def reservedKeysOf (p : Product) : List String :=
  (p.metadata.map Prod.fst).filter (fun k => strStartsWith k reservedKeyStart)

/-- Every offending metadata key collected across the whole catalog, each
named once. -/
def catalogReservedKeys (products : List Product) : List String :=
  (products.flatMap reservedKeysOf).dedup

/-- Modelled from the spec: the Product Schema Validator. Structural
violations fail with a schemaValidation error; reserved metadata keys,
collected across all products, fail with a reservedMetadataKey error. -/
def validateProducts (j : Json) : Except PaymentsError (List Product) :=
  match j.getField "products" with
  | some (.arr xs) =>
    match exceptMapList parseProduct xs with
    | .error msg => .error (.schemaValidation msg)
    | .ok products =>
      if catalogReservedKeys products = [] then .ok products
      else .error (.reservedMetadataKey (catalogReservedKeys products))
  | _ => .error (.schemaValidation "products must be an array")

/-- The fixed catalog path under a project root. -/
def productsJsonPath (projectRoot : String) : String :=
  projectRoot ++ "/src/products.json"

/-- A filesystem snapshot: the readable files and their parsed JSON
content. -/
structure FileSystem where
  files : List (String × Json)

/-- Reads a file from the snapshot; `none` when the file does not exist. -/
def FileSystem.read (fs : FileSystem) (p : String) : Option Json :=
  (fs.files.find? (fun kv => kv.fst == p)).map Prod.snd

/-- Modelled from the spec: readProducts, the Product Catalog Loader. A
missing catalog file is the benign absent state; a present file is
delegated to the schema validator, whose failures propagate unchanged. -/
def readProducts (fs : FileSystem) (projectRoot : String) :
    Except PaymentsError (Option (List Product)) :=
  match fs.read (productsJsonPath projectRoot) with
  | none => Except.ok none
  | some j => (validateProducts j).map some

/-- Raster image formats a decoder can report. -/
inductive ImageFormat where
  | png
  | jpeg
  | gif
  deriving DecidableEq, Repr

/-- The decoded header of a raster image. -/
structure ImageInfo where
  format : ImageFormat
  width : Nat
  height : Nat
  deriving DecidableEq, Repr

/-- Minimum icon edge length in pixels. -/
def minIconSize : Nat := 256

/-- Modelled from the spec: validateProductIcon inspects the image file at a
path. The raster-decoding library is external to the slice, so a file is
represented by its decode result (`none` when the bytes are not a decodable
raster image). Checks run in a fixed order: decodable, PNG, square, minimum
size; success returns no value. -/
def validateProductIcon (decode : String → Option ImageInfo) (p : String) :
    Except String Unit :=
  match decode p with
  | none => Except.error "not a valid image"
  | some info =>
    if info.format ≠ ImageFormat.png then Except.error "must be a PNG"
    else if info.width ≠ info.height then Except.error "must be square"
    else if info.width < minIconSize then Except.error "must be at least 256x256"
    else Except.ok ()

/-- Substring containment, used to state the stable-message contracts. -/
def strContains (s sub : String) : Prop := sub.toList <:+: s.toList

instance (s sub : String) : Decidable (strContains s sub) :=
  List.decidableInfix sub.toList s.toList

/-
Shared helper lemmas.
-/

theorem mem_assetKeys_iff (b : Bundle) (f : String) :
    b.assetIds.any (fun kv => kv.fst == f) = true ↔ f ∈ assetKeys b := by
  simp [assetKeys, List.any_eq_true, List.mem_map]

theorem mem_missingImageAssets (b : Bundle) (products : List Product) (f : String) :
    f ∈ missingImageAssets b products ↔
      f ∈ referencedImages products ∧ f ∉ assetKeys b := by
  unfold missingImageAssets
  rw [List.mem_dedup, List.mem_filter]
  constructor
  · rintro ⟨href, hb⟩
    refine ⟨href, fun hmem => ?_⟩
    rw [Bool.not_eq_true', ← Bool.not_eq_true] at hb
    exact hb ((mem_assetKeys_iff b f).mpr hmem)
  · rintro ⟨href, habs⟩
    refine ⟨href, ?_⟩
    rw [Bool.not_eq_true', ← Bool.not_eq_true]
    intro hany
    exact habs ((mem_assetKeys_iff b f).mp hany)

theorem missingImageAssets_eq_nil_iff (b : Bundle) (products : List Product) :
    missingImageAssets b products = [] ↔
      ∀ f ∈ referencedImages products, f ∈ assetKeys b := by
  rw [List.eq_nil_iff_forall_not_mem]
  constructor
  · intro h f href
    by_contra habs
    exact h f ((mem_missingImageAssets b products f).mpr ⟨href, habs⟩)
  · intro h f hmem
    obtain ⟨href, habs⟩ := (mem_missingImageAssets b products f).mp hmem
    exact habs (h f href)

theorem hasPaymentsCapability_eq_false_iff (b : Bundle) :
    hasPaymentsCapability b = false ↔
      ∀ d, b.dependencies = some d →
        (∀ pr ∈ d.provides, pr.definition.fullName ≠ paymentProcessorFullName) ∧
        (∀ u ∈ d.uses, u.typeName ≠ paymentsServiceFullName) := by
  unfold hasPaymentsCapability
  cases hdep : b.dependencies with
  | none => simp
  | some d => simp [List.any_eq_true]

theorem getPaymentsConfig_ok_shape (b : Bundle) (products : List Product)
    (va : Bool) (c : PaymentsConfig)
    (h : getPaymentsConfig b products va = Except.ok c) :
    c = makePaymentsConfig products := by
  unfold getPaymentsConfig at h
  split at h
  · split at h
    · exact absurd h (by simp)
    · split at h
      · dsimp only at h
        split at h
        · exact (Except.ok.inj h).symm
        · exact absurd h (by simp)
      · dsimp only at h
        simp at h
        exact h.symm
  · exact absurd h (by simp)

theorem getPaymentsConfig_empty_of_cap (b : Bundle) (va : Bool)
    (hcap : hasPaymentsCapability b = true) :
    getPaymentsConfig b [] va = Except.error PaymentsError.emptyCatalog := by
  unfold getPaymentsConfig
  rw [if_pos hcap, if_pos rfl]

theorem exceptMapList_error_of_mem {α β : Type} (f : α → Except String β)
    (xs : List α) (x : α) (hx : x ∈ xs) (msg : String) (hf : f x = Except.error msg) :
    ∃ d, exceptMapList f xs = Except.error d := by
  induction xs with
  | nil => cases hx
  | cons y rest ih =>
    cases hy : f y with
    | error d => exact ⟨d, by simp only [exceptMapList, hy]; rfl⟩
    | ok v =>
      rcases List.mem_cons.mp hx with hEq | hrest
      · subst hEq
        rw [hy] at hf
        cases hf
      · obtain ⟨d, hd⟩ := ih hrest
        exact ⟨d, by simp only [exceptMapList, hy, hd]; rfl⟩

theorem mem_catalogReservedKeys (products : List Product) (k : String) :
    k ∈ catalogReservedKeys products ↔
      ∃ p ∈ products, k ∈ p.metadata.map Prod.fst ∧
        strStartsWith k reservedKeyStart = true := by
  unfold catalogReservedKeys reservedKeysOf
  rw [List.mem_dedup, List.mem_flatMap]
  constructor
  · rintro ⟨p, hp, hk⟩
    obtain ⟨hmem, hstr⟩ := List.mem_filter.mp hk
    exact ⟨p, hp, hmem, hstr⟩
  · rintro ⟨p, hp, hmem, hstr⟩
    exact ⟨p, hp, List.mem_filter.mpr ⟨hmem, hstr⟩⟩

theorem strContains_of_prefix_append (pre d marker : String)
    (h : marker.toList <+: pre.toList) : strContains (pre ++ d) marker := by
  unfold strContains
  obtain ⟨t, ht⟩ := h
  refine ⟨[], t ++ d.toList, ?_⟩
  have happ : (pre ++ d).toList = pre.toList ++ d.toList := by
    simp [String.toList]
  rw [happ, ← ht]
  simp

/-
Sample values used to exercise the theorems on concrete inputs.
-/

/-- The single-product catalog of the spec's concrete scenarios, with an icon
slot referencing icon.jpg. -/
def sampleProduct : Product :=
  { sku := "product-1", displayName := "Product 1", price := 25,
    accountingType := .instant, metadata := [], images := [("icon", "icon.jpg")] }

/-- A provides entry declaring the payment-processor capability. -/
def processorProvides : ProvidesEntry :=
  { definition := { fullName := paymentProcessorFullName, name := "", version := "" },
    partitionsBy := [] }

/-- A bundle that provides the payment-processor capability and carries
icon.jpg in its asset manifest. -/
def bundleWithAsset : Bundle :=
  { code := "", assetIds := [("icon.jpg", "abc123")], webviewAssetIds := [],
    dependencies := some { hostname := "", provides := [processorProvides], uses := [] },
    paymentsConfig := none }

/-- A bundle with no dependency graph at all, hence no payment capability. -/
def bareBundle : Bundle :=
  { code := "", assetIds := [], webviewAssetIds := [],
    dependencies := none, paymentsConfig := none }

/-- The sample product with its icon slot referencing a filename that no
manifest below carries. -/
def sampleMissingProduct : Product :=
  { sku := "product-1", displayName := "Product 1", price := 25,
    accountingType := .instant, metadata := [],
    images := [("icon", "doesnotexist.jpg")] }

/-- A bundle declaring the capability but whose manifest lacks the
referenced icon. -/
def bundleMissingAsset : Bundle :=
  { code := "", assetIds := [("exists.jpg", "abc123")], webviewAssetIds := [],
    dependencies := some { hostname := "", provides := [processorProvides], uses := [] },
    paymentsConfig := none }

/-- A uses entry naming the payments service definition. -/
def serviceUse : UsesEntry := { typeName := paymentsServiceFullName, name := "" }

/-- A dependency graph with empty provides whose only capability declaration
is the serviceUse entry on the uses side. -/
def usesOnlyDeps : Dependencies :=
  { hostname := "", provides := [], uses := [serviceUse] }

/-- A bundle whose capability comes only from the uses side, naming the
payments service definition. -/
def bundleUsesService : Bundle :=
  { code := "", assetIds := [], webviewAssetIds := [],
    dependencies := some usesOnlyDeps, paymentsConfig := none }

/-
Claim theorems.
-/

/-- C1: for every schema-valid catalog with at least one product and every
bundle that declares the payment-processor capability and whose assetIds
contain every image filename the products reference, getPaymentsConfig
succeeds and returns exactly makePaymentsConfig of the product list, the
mapping keyed by each product's sku. -/
theorem getPaymentsConfig_assembles_by_sku (b : Bundle) (products : List Product)
    (hcap : hasPaymentsCapability b = true) (hne : products ≠ [])
    (hassets : ∀ f ∈ referencedImages products, f ∈ assetKeys b) :
    getPaymentsConfig b products true = Except.ok (makePaymentsConfig products) := by
  have hmiss : missingImageAssets b products = [] :=
    (missingImageAssets_eq_nil_iff b products).mpr hassets
  unfold getPaymentsConfig
  rw [if_pos hcap, if_neg hne]
  dsimp only
  rw [if_pos rfl, if_pos hmiss]

/-- Witness for C1 at the spec's concrete scenario: a single product with sku
product-1 referencing icon.jpg, against a bundle that has the capability and
the asset, yields the mapping with the one key product-1. -/
theorem getPaymentsConfig_assembles_by_sku_witness :
    hasPaymentsCapability bundleWithAsset = true ∧
    [sampleProduct] ≠ [] ∧
    (∀ f ∈ referencedImages [sampleProduct], f ∈ assetKeys bundleWithAsset) ∧
    getPaymentsConfig bundleWithAsset [sampleProduct] true =
      Except.ok [("product-1", sampleProduct)] :=
  ⟨by decide, by decide, by decide,
    getPaymentsConfig_assembles_by_sku bundleWithAsset [sampleProduct]
      (by decide) (by decide) (by decide)⟩

/-- C3: for every catalog with at least one product and any verifyAssets
setting, a bundle whose dependencies declare the payment-processor
capability in neither provides nor uses fails with missingCapability, whose
message contains the stable phrase, regardless of product validity. -/
theorem getPaymentsConfig_missing_capability (b : Bundle) (products : List Product)
    (va : Bool) (_hne : products ≠ [])
    (hnone : ∀ d, b.dependencies = some d →
        (∀ pr ∈ d.provides, pr.definition.fullName ≠ paymentProcessorFullName) ∧
        (∀ u ∈ d.uses, u.typeName ≠ paymentsServiceFullName)) :
    getPaymentsConfig b products va = Except.error PaymentsError.missingCapability ∧
    strContains PaymentsError.missingCapability.message
      "your app does not handle payment processing" := by
  refine ⟨?_, by decide⟩
  have hcap : hasPaymentsCapability b = false :=
    (hasPaymentsCapability_eq_false_iff b).mpr hnone
  unfold getPaymentsConfig
  rw [if_neg (by rw [hcap]; exact Bool.false_ne_true)]

/-- Witness for C3: the one-product catalog against a bundle with no
dependency graph fails with missingCapability. -/
theorem getPaymentsConfig_missing_capability_witness :
    [sampleProduct] ≠ [] ∧
    (∀ d, bareBundle.dependencies = some d →
        (∀ pr ∈ d.provides, pr.definition.fullName ≠ paymentProcessorFullName) ∧
        (∀ u ∈ d.uses, u.typeName ≠ paymentsServiceFullName)) ∧
    getPaymentsConfig bareBundle [sampleProduct] true =
      Except.error PaymentsError.missingCapability :=
  ⟨by decide, (by intro d hd; simp [bareBundle] at hd),
    (getPaymentsConfig_missing_capability bareBundle [sampleProduct] true
      (by decide) (by intro d hd; simp [bareBundle] at hd)).1⟩

/-- C6: if the catalog is present but has zero products while the bundle does
declare the payment capability, getPaymentsConfig fails with emptyCatalog,
whose message contains the stable phrase. -/
theorem getPaymentsConfig_empty_catalog (b : Bundle) (va : Bool)
    (hcap : hasPaymentsCapability b = true) :
    getPaymentsConfig b [] va = Except.error PaymentsError.emptyCatalog ∧
    strContains PaymentsError.emptyCatalog.message "you must specify products" :=
  ⟨getPaymentsConfig_empty_of_cap b va hcap, by decide⟩

/-- Witness for C6: the empty catalog against the capability-declaring bundle
fails with emptyCatalog. -/
theorem getPaymentsConfig_empty_catalog_witness :
    hasPaymentsCapability bundleWithAsset = true ∧
    getPaymentsConfig bundleWithAsset [] true =
      Except.error PaymentsError.emptyCatalog :=
  ⟨by decide, (getPaymentsConfig_empty_catalog bundleWithAsset true (by decide)).1⟩

/-- C8: with the capability declared and a non-empty catalog, calling
getPaymentsConfig with verifyAssets false succeeds even when referenced
images are missing from the manifest, and its result equals
makePaymentsConfig of the products, which is also the content of any
successful verified-case result of the same catalog. -/
theorem getPaymentsConfig_skip_verify (b : Bundle) (products : List Product)
    (hcap : hasPaymentsCapability b = true) (hne : products ≠ []) :
    getPaymentsConfig b products false = Except.ok (makePaymentsConfig products) ∧
    ∀ c, getPaymentsConfig b products true = Except.ok c →
      c = makePaymentsConfig products := by
  refine ⟨?_, fun c hc => getPaymentsConfig_ok_shape b products true c hc⟩
  unfold getPaymentsConfig
  rw [if_pos hcap, if_neg hne]
  dsimp only
  rw [if_neg Bool.false_ne_true, if_pos rfl]

/-- Witness for C8: the product referencing a filename absent from the
manifest still builds when verification is off, with the same content
makePaymentsConfig gives. -/
theorem getPaymentsConfig_skip_verify_witness :
    hasPaymentsCapability bundleMissingAsset = true ∧
    [sampleProduct] ≠ [] ∧
    getPaymentsConfig bundleMissingAsset [sampleProduct] false =
      Except.ok (makePaymentsConfig [sampleProduct]) :=
  ⟨by decide, by decide,
    (getPaymentsConfig_skip_verify bundleMissingAsset [sampleProduct]
      (by decide) (by decide)).1⟩

/-- C10: the capability check is satisfied by a bundle whose dependencies.uses
contains an entry naming the payments service definition, a well-known name
distinct from the payment-processor definition matched on the provides side,
even when provides is empty; with a zero-product catalog such a bundle fails
with emptyCatalog, not missingCapability. -/
theorem getPaymentsConfig_uses_side_capability (b : Bundle) (d : Dependencies)
    (va : Bool) (hdep : b.dependencies = some d)
    (huses : ∃ u ∈ d.uses, u.typeName = paymentsServiceFullName) :
    getPaymentsConfig b [] va = Except.error PaymentsError.emptyCatalog ∧
    paymentsServiceFullName ≠ paymentProcessorFullName := by
  refine ⟨?_, by decide⟩
  have hcap : hasPaymentsCapability b = true := by
    unfold hasPaymentsCapability
    rw [hdep]
    dsimp only
    have hany : d.uses.any (fun u => u.typeName == paymentsServiceFullName) = true := by
      rw [List.any_eq_true]
      obtain ⟨u, hu, hname⟩ := huses
      exact ⟨u, hu, beq_iff_eq.mpr hname⟩
    rw [hany, Bool.or_true]
  exact getPaymentsConfig_empty_of_cap b va hcap

/-- Witness for C10: a bundle with empty provides and a uses entry naming the
payments service fails on the empty catalog with emptyCatalog. -/
theorem getPaymentsConfig_uses_side_capability_witness :
    bundleUsesService.dependencies = some usesOnlyDeps ∧
    (∃ u ∈ usesOnlyDeps.uses, u.typeName = paymentsServiceFullName) ∧
    getPaymentsConfig bundleUsesService [] true =
      Except.error PaymentsError.emptyCatalog :=
  ⟨rfl, ⟨serviceUse, by decide, rfl⟩,
    (getPaymentsConfig_uses_side_capability bundleUsesService usesOnlyDeps true rfl
      ⟨serviceUse, by decide, rfl⟩).1⟩

/-- C2: when building the configuration fails, the bundle is unchanged and
its paymentsConfig slot remains unset; on success the result is attached to
paymentsConfig and code, assetIds, dependencies and webviewAssetIds are
untouched. -/
theorem injectProducts_frame (b : Bundle) (products : List Product) (va : Bool)
    (hunset : b.paymentsConfig = none) :
    ((injectProducts b products va).snd.isSome = true →
        (injectProducts b products va).fst = b ∧
        (injectProducts b products va).fst.paymentsConfig = none) ∧
    ((injectProducts b products va).snd = none →
        (injectProducts b products va).fst.paymentsConfig =
          some (makePaymentsConfig products) ∧
        (injectProducts b products va).fst.code = b.code ∧
        (injectProducts b products va).fst.assetIds = b.assetIds ∧
        (injectProducts b products va).fst.dependencies = b.dependencies ∧
        (injectProducts b products va).fst.webviewAssetIds = b.webviewAssetIds) := by
  unfold injectProducts
  cases hres : getPaymentsConfig b products va with
  | error e =>
    dsimp only
    exact ⟨fun _ => ⟨rfl, hunset⟩, fun hcontra => (by cases hcontra)⟩
  | ok cfg =>
    have hcfg := getPaymentsConfig_ok_shape b products va cfg hres
    subst hcfg
    dsimp only
    exact ⟨fun hcontra => (by cases hcontra), fun _ => ⟨rfl, rfl, rfl, rfl, rfl⟩⟩

/-- Witness for C2 on the success path: injecting the sample catalog into the
capability-declaring bundle attaches exactly the sku-keyed config and leaves
every other field as it was. -/
theorem injectProducts_frame_witness :
    bundleWithAsset.paymentsConfig = none ∧
    ((injectProducts bundleWithAsset [sampleProduct] true).snd = none →
      (injectProducts bundleWithAsset [sampleProduct] true).fst.paymentsConfig =
        some (makePaymentsConfig [sampleProduct]) ∧
      (injectProducts bundleWithAsset [sampleProduct] true).fst.code =
        bundleWithAsset.code ∧
      (injectProducts bundleWithAsset [sampleProduct] true).fst.assetIds =
        bundleWithAsset.assetIds ∧
      (injectProducts bundleWithAsset [sampleProduct] true).fst.dependencies =
        bundleWithAsset.dependencies ∧
      (injectProducts bundleWithAsset [sampleProduct] true).fst.webviewAssetIds =
        bundleWithAsset.webviewAssetIds) :=
  ⟨rfl, (injectProducts_frame bundleWithAsset [sampleProduct] true rfl).2⟩

/-- C4: with verification enabled and the earlier checks passing,
getPaymentsConfig fails with missingAssets exactly when some product
references an image filename absent from the manifest, and the reported list
holds exactly the referenced-but-absent filenames, each once: filenames
present in assetIds never appear in it. -/
theorem getPaymentsConfig_missing_assets (b : Bundle) (products : List Product)
    (hcap : hasPaymentsCapability b = true) (hne : products ≠ []) :
    ((∃ l, getPaymentsConfig b products true =
        Except.error (PaymentsError.missingAssets l)) ↔
      ∃ f ∈ referencedImages products, f ∉ assetKeys b) ∧
    (∀ l, getPaymentsConfig b products true =
        Except.error (PaymentsError.missingAssets l) →
      ((∀ f, f ∈ l ↔ (f ∈ referencedImages products ∧ f ∉ assetKeys b)) ∧
        l.Nodup)) := by
  have hshape : getPaymentsConfig b products true =
      (if missingImageAssets b products = [] then
        Except.ok (makePaymentsConfig products)
      else Except.error (PaymentsError.missingAssets (missingImageAssets b products))) := by
    unfold getPaymentsConfig
    rw [if_pos hcap, if_neg hne]
    dsimp only
    rw [if_pos rfl]
  constructor
  · rw [hshape]
    constructor
    · rintro ⟨l, hl⟩
      by_cases hm : missingImageAssets b products = []
      · rw [if_pos hm] at hl
        cases hl
      · obtain ⟨f, hf⟩ := List.exists_mem_of_ne_nil _ hm
        obtain ⟨href, habs⟩ := (mem_missingImageAssets b products f).mp hf
        exact ⟨f, href, habs⟩
    · rintro ⟨f, href, habs⟩
      have hmem : f ∈ missingImageAssets b products :=
        (mem_missingImageAssets b products f).mpr ⟨href, habs⟩
      have hm : missingImageAssets b products ≠ [] := by
        intro h0
        rw [h0] at hmem
        cases hmem
      rw [if_neg hm]
      exact ⟨missingImageAssets b products, rfl⟩
  · intro l hl
    rw [hshape] at hl
    by_cases hm : missingImageAssets b products = []
    · rw [if_pos hm] at hl
      cases hl
    · rw [if_neg hm] at hl
      have hEq : missingImageAssets b products = l :=
        PaymentsError.missingAssets.inj (Except.error.inj hl)
      subst hEq
      refine ⟨fun f => mem_missingImageAssets b products f, ?_⟩
      unfold missingImageAssets
      exact List.nodup_dedup _

/-- Witness for C4: the product referencing doesnotexist.jpg against a
manifest holding only exists.jpg fails with missingAssets naming exactly
that filename. -/
theorem getPaymentsConfig_missing_assets_witness :
    hasPaymentsCapability bundleMissingAsset = true ∧
    [sampleMissingProduct] ≠ [] ∧
    (∃ l, getPaymentsConfig bundleMissingAsset [sampleMissingProduct] true =
      Except.error (PaymentsError.missingAssets l)) ∧
    getPaymentsConfig bundleMissingAsset [sampleMissingProduct] true =
      Except.error (PaymentsError.missingAssets ["doesnotexist.jpg"]) :=
  ⟨by decide, by decide,
    (getPaymentsConfig_missing_assets bundleMissingAsset [sampleMissingProduct]
        (by decide) (by decide)).1.mpr
      ⟨"doesnotexist.jpg", by decide, by decide⟩,
    rfl⟩

/-
Sample filesystem snapshots and catalog files for the loader claims.
-/

/-- A filesystem with no catalog file at all. -/
def fsEmpty : FileSystem := { files := [] }

/-- A raw product whose price is the string not-a-number. -/
def badPriceElem : Json :=
  Json.obj [("sku", Json.str "product-1"), ("displayName", Json.str "Product 1"),
    ("price", Json.str "not a number"), ("accountingType", Json.str "INSTANT")]

/-- A catalog file holding only the bad-price product. -/
def badPriceJson : Json := Json.obj [("products", Json.arr [badPriceElem])]

/-- A filesystem whose catalog file holds the bad-price product. -/
def fsWithBadPrice : FileSystem :=
  { files := [(productsJsonPath "/path/to/project", badPriceJson)] }

/-- A raw product carrying a reserved devvit- metadata key. -/
def invalidMetaElem : Json :=
  Json.obj [("sku", Json.str "product-1"), ("displayName", Json.str "Product 1"),
    ("price", Json.num 25), ("accountingType", Json.str "INSTANT"),
    ("metadata", Json.obj [("devvit-invalid", Json.str "this breaks upload")])]

/-- The catalog file holding only the reserved-key product. -/
def invalidMetaJson : Json := Json.obj [("products", Json.arr [invalidMetaElem])]

/-- A filesystem whose catalog file holds the reserved-key product. -/
def fsWithInvalidMeta : FileSystem :=
  { files := [(productsJsonPath "/path/to/project", invalidMetaJson)] }

/-- The typed product the reserved-key file parses to. -/
def invalidMetaProduct : Product :=
  { sku := "product-1", displayName := "Product 1", price := 25,
    accountingType := .instant,
    metadata := [("devvit-invalid", "this breaks upload")], images := [] }

/-- A raw product whose metadata keys all avoid the reserved beginning. -/
def cleanMetaElem : Json :=
  Json.obj [("sku", Json.str "product-1"), ("displayName", Json.str "Product 1"),
    ("price", Json.num 25), ("accountingType", Json.str "INSTANT"),
    ("metadata", Json.obj [("color", Json.str "red")])]

/-- The catalog file holding only the clean-metadata product. -/
def cleanMetaJson : Json := Json.obj [("products", Json.arr [cleanMetaElem])]

/-- A filesystem whose catalog file holds the clean-metadata product. -/
def fsWithCleanMeta : FileSystem :=
  { files := [(productsJsonPath "/path/to/project", cleanMetaJson)] }

/-- The typed product the clean-metadata file parses to. -/
def cleanMetaProduct : Product :=
  { sku := "product-1", displayName := "Product 1", price := 25,
    accountingType := .instant, metadata := [("color", "red")], images := [] }

/-- Helper: a structural failure of any element makes validateProducts fail
with a schemaValidation error. -/
theorem validateProducts_error_of_parse_error (j : Json) (elems : List Json)
    (x : Json) (msg : String)
    (hfield : j.getField "products" = some (Json.arr elems))
    (hx : x ∈ elems) (hparse : parseProduct x = Except.error msg) :
    ∃ d, validateProducts j = Except.error (PaymentsError.schemaValidation d) := by
  obtain ⟨d, hd⟩ := exceptMapList_error_of_mem parseProduct elems x hx msg hparse
  refine ⟨d, ?_⟩
  unfold validateProducts
  rw [hfield]
  dsimp only
  rw [hd]

/-- C5: a missing catalog file makes readProducts return the absent state
without raising; a present file containing a structurally invalid product
makes readProducts fail with a schemaValidation error whose message carries
the products.json validation error marker, returning no partial catalog. -/
theorem readProducts_absent_or_invalid (fs : FileSystem) (root : String) :
    (fs.read (productsJsonPath root) = none →
      readProducts fs root = Except.ok none) ∧
    (∀ j elems x msg, fs.read (productsJsonPath root) = some j →
      j.getField "products" = some (Json.arr elems) →
      x ∈ elems → parseProduct x = Except.error msg →
      ∃ d, readProducts fs root = Except.error (PaymentsError.schemaValidation d) ∧
        strContains (PaymentsError.schemaValidation d).message
          "products.json validation error") := by
  constructor
  · intro habs
    unfold readProducts
    rw [habs]
  · intro j elems x msg hfile hfield hx hparse
    obtain ⟨d, hd⟩ := validateProducts_error_of_parse_error j elems x msg hfield hx hparse
    refine ⟨d, ?_, ?_⟩
    · unfold readProducts
      rw [hfile]
      dsimp only
      rw [hd]
      rfl
    · exact strContains_of_prefix_append "products.json validation error: " d
        "products.json validation error" (by decide)

/-- Witness for C5: the empty filesystem yields the absent state; the
bad-price catalog fails with the marker-carrying schemaValidation error. -/
theorem readProducts_absent_or_invalid_witness :
    fsEmpty.read (productsJsonPath "/path/to/project") = none ∧
    readProducts fsEmpty "/path/to/project" = Except.ok none ∧
    fsWithBadPrice.read (productsJsonPath "/path/to/project") = some badPriceJson ∧
    badPriceJson.getField "products" = some (Json.arr [badPriceElem]) ∧
    parseProduct badPriceElem = Except.error "product price must be a number" ∧
    (∃ d, readProducts fsWithBadPrice "/path/to/project" =
      Except.error (PaymentsError.schemaValidation d) ∧
      strContains (PaymentsError.schemaValidation d).message
        "products.json validation error") :=
  ⟨rfl, (readProducts_absent_or_invalid fsEmpty "/path/to/project").1 rfl,
    rfl, rfl, rfl,
    (readProducts_absent_or_invalid fsWithBadPrice "/path/to/project").2
      badPriceJson [badPriceElem] badPriceElem "product price must be a number"
      rfl rfl (List.mem_singleton.mpr rfl) rfl⟩

/-- C7: once a present catalog file parses structurally, a product carrying
any metadata key with the reserved devvit- beginning makes the load fail
with a reservedMetadataKey error whose key list holds exactly the offending
keys collected across the catalog, while a catalog all of whose metadata
keys avoid the reserved beginning is accepted whole. -/
theorem readProducts_reserved_metadata (fs : FileSystem) (root : String)
    (j : Json) (elems : List Json) (ps : List Product)
    (hfile : fs.read (productsJsonPath root) = some j)
    (hfield : j.getField "products" = some (Json.arr elems))
    (hparse : exceptMapList parseProduct elems = Except.ok ps) :
    (catalogReservedKeys ps ≠ [] →
      readProducts fs root =
        Except.error (PaymentsError.reservedMetadataKey (catalogReservedKeys ps)) ∧
      (∀ k, k ∈ catalogReservedKeys ps ↔
        ∃ p ∈ ps, k ∈ p.metadata.map Prod.fst ∧
          strStartsWith k reservedKeyStart = true)) ∧
    (catalogReservedKeys ps = [] →
      readProducts fs root = Except.ok (some ps)) := by
  have hval : validateProducts j =
      (if catalogReservedKeys ps = [] then Except.ok ps
       else Except.error (PaymentsError.reservedMetadataKey (catalogReservedKeys ps))) := by
    unfold validateProducts
    rw [hfield]
    dsimp only
    rw [hparse]
  have hread : readProducts fs root = (validateProducts j).map some := by
    unfold readProducts
    rw [hfile]
  constructor
  · intro hbad
    refine ⟨?_, fun k => mem_catalogReservedKeys ps k⟩
    rw [hread, hval, if_neg hbad]
    rfl
  · intro hclean
    rw [hread, hval, if_pos hclean]
    rfl

/-- Witness for C7: the devvit-invalid catalog fails listing exactly that
key, with the tested message; the clean-metadata catalog loads whole. -/
theorem readProducts_reserved_metadata_witness :
    catalogReservedKeys [invalidMetaProduct] = ["devvit-invalid"] ∧
    readProducts fsWithInvalidMeta "/path/to/project" =
      Except.error (PaymentsError.reservedMetadataKey ["devvit-invalid"]) ∧
    (PaymentsError.reservedMetadataKey ["devvit-invalid"]).message =
      "Products metadata cannot start with \"devvit-\". Invalid keys: devvit-invalid" ∧
    catalogReservedKeys [cleanMetaProduct] = [] ∧
    readProducts fsWithCleanMeta "/path/to/project" =
      Except.ok (some [cleanMetaProduct]) :=
  ⟨rfl,
    ((readProducts_reserved_metadata fsWithInvalidMeta "/path/to/project"
        invalidMetaJson [invalidMetaElem] [invalidMetaProduct]
        rfl rfl rfl).1 (by decide)).1,
    rfl, rfl,
    (readProducts_reserved_metadata fsWithCleanMeta "/path/to/project"
        cleanMetaJson [cleanMetaElem] [cleanMetaProduct]
        rfl rfl rfl).2 rfl⟩

/-- C9: validateProductIcon applies its checks in a fixed order with distinct
messages: a non-decodable file fails as not a valid image; a decodable
non-PNG fails as must be a PNG; a non-square PNG fails as must be square; a
square PNG under 256 px fails as must be at least 256x256; and a square PNG
of at least 256 px returns normally with no value. -/
theorem validateProductIcon_checks (decode : String → Option ImageInfo) (p : String) :
    (decode p = none →
      validateProductIcon decode p = Except.error "not a valid image") ∧
    (∀ i, decode p = some i → i.format ≠ ImageFormat.png →
      validateProductIcon decode p = Except.error "must be a PNG") ∧
    (∀ i, decode p = some i → i.format = ImageFormat.png → i.width ≠ i.height →
      validateProductIcon decode p = Except.error "must be square") ∧
    (∀ i, decode p = some i → i.format = ImageFormat.png → i.width = i.height →
      i.width < minIconSize →
      validateProductIcon decode p = Except.error "must be at least 256x256") ∧
    (∀ i, decode p = some i → i.format = ImageFormat.png → i.width = i.height →
      minIconSize ≤ i.width → validateProductIcon decode p = Except.ok ()) ∧
    (["not a valid image", "must be a PNG", "must be square",
      "must be at least 256x256"] : List String).Nodup := by
  refine ⟨?_, ?_, ?_, ?_, ?_, by decide⟩
  · intro h
    unfold validateProductIcon
    rw [h]
  · intro i h hfmt
    unfold validateProductIcon
    rw [h]
    dsimp only
    rw [if_pos hfmt]
  · intro i h hfmt hsq
    unfold validateProductIcon
    rw [h]
    dsimp only
    rw [if_neg (not_not_intro hfmt), if_pos hsq]
  · intro i h hfmt hsq hlt
    unfold validateProductIcon
    rw [h]
    dsimp only
    rw [if_neg (not_not_intro hfmt), if_neg (not_not_intro hsq), if_pos hlt]
  · intro i h hfmt hsq hge
    unfold validateProductIcon
    rw [h]
    dsimp only
    rw [if_neg (not_not_intro hfmt), if_neg (not_not_intro hsq),
      if_neg (Nat.not_lt.mpr hge)]

/-- A decodable square PNG of ample size. -/
def goodIcon : ImageInfo := { format := .png, width := 512, height := 512 }

/-- A decodable square JPEG. -/
def jpegIcon : ImageInfo := { format := .jpeg, width := 512, height := 512 }

/-- A decodable non-square PNG. -/
def wideIcon : ImageInfo := { format := .png, width := 512, height := 256 }

/-- A decodable square PNG under the minimum size. -/
def tinyIcon : ImageInfo := { format := .png, width := 64, height := 64 }

/-- A decoder matching the test-image set: decodable files by name, anything
else not a valid image. -/
def decodeSample : String → Option ImageInfo := fun p =>
  if p = "good.png" then some goodIcon
  else if p = "not-png.jpg" then some jpegIcon
  else if p = "not-square.png" then some wideIcon
  else if p = "too-small.png" then some tinyIcon
  else none

/-- Witness for C9: each test image hits its own check. -/
theorem validateProductIcon_checks_witness :
    validateProductIcon decodeSample "not-an-image.png" =
      Except.error "not a valid image" ∧
    validateProductIcon decodeSample "not-png.jpg" = Except.error "must be a PNG" ∧
    validateProductIcon decodeSample "not-square.png" = Except.error "must be square" ∧
    validateProductIcon decodeSample "too-small.png" =
      Except.error "must be at least 256x256" ∧
    validateProductIcon decodeSample "good.png" = Except.ok () :=
  ⟨(validateProductIcon_checks decodeSample "not-an-image.png").1 rfl,
    (validateProductIcon_checks decodeSample "not-png.jpg").2.1 jpegIcon rfl (by decide),
    (validateProductIcon_checks decodeSample "not-square.png").2.2.1 wideIcon rfl rfl
      (by decide),
    (validateProductIcon_checks decodeSample "too-small.png").2.2.2.1 tinyIcon rfl rfl
      rfl (by decide),
    (validateProductIcon_checks decodeSample "good.png").2.2.2.2.1 goodIcon rfl rfl
      rfl (by decide)⟩

end Devvit
